import Mathlib

/-!
Verification of the deeptrade quantitative-finance core and its frontend
consumers.  Prices, equity and indicator values are modelled as rationals;
indicator series are index-aligned lists of optional values (`none` encodes
the JavaScript/JSON `null`/`undefined` used for warm-up positions).

The indicator engine, backtest simulator and risk reducer are modelled from
the specification because they live in the backend, outside the frontend
sources; the Dashboard, ChartView and Settings functions are translated
directly from the frontend sources.
-/

namespace DeepTrade

/-- A price candle `{timestamp, open, high, low, close, volume}` (spec §3). -/
structure Candle where
  timestamp : ℕ
  open_ : ℚ
  high : ℚ
  low : ℚ
  close : ℚ
  volume : ℚ
deriving DecidableEq, Repr

/-- Modelled from the spec: SMA(n) at index `i` over a list of closes —
arithmetic mean of the last `n` closes, undefined for index < n−1
(spec §4.1).  The backend indicator engine is not in the sources. -/
def smaAt (closes : List ℚ) (n : ℕ) (i : ℕ) : Option ℚ :=
  if n ≠ 0 ∧ n ≤ i + 1 then
    some (((closes.take (i + 1)).drop (i + 1 - n)).sum / n)
  else
    none

/-- Modelled from the spec: the SMA(n) indicator series, index-aligned 1:1
with the candle-close series. -/
def smaSeries (closes : List ℚ) (n : ℕ) : List (Option ℚ) :=
  (List.range closes.length).map (smaAt closes n)

/-- One entry of ChartView's `chartData`: the candle fields plus the
optional indicator fields that are only set when the backend value is not
null (src/unnamed/part_004, ChartView, lines 299–321). -/
structure ChartPoint where
  open_ : ℚ
  high : ℚ
  low : ℚ
  close : ℚ
  volume : ℚ
  sma20 : Option ℚ
  sma50 : Option ℚ
  rsi : Option ℚ
deriving DecidableEq, Repr

/-- ChartView's per-candle data-point construction: each indicator field is
attached only when the aligned series value is not null, so a warm-up
position leaves the field absent (`none`), never a comparable number. -/
def chartPoint (c : Candle) (sma20v sma50v rsiv : Option ℚ) : ChartPoint :=
  { open_ := c.open_
    high := c.high
    low := c.low
    close := c.close
    volume := c.volume
    sma20 := match sma20v with
      | some v => some v
      | none => none
    sma50 := match sma50v with
      | some v => some v
      | none => none
    rsi := match rsiv with
      | some v => some v
      | none => none }

/-- Modelled from the spec: the EMA smoothing factor α = 2/(n+1) (spec §4.1). -/
def emaAlpha (n : ℕ) : ℚ := 2 / (n + 1)

/-- Modelled from the spec: SMA(n) of the first n closes, the EMA seed value. -/
def smaFirst (closes : List ℚ) (n : ℕ) : ℚ := (closes.take n).sum / n

/-- Modelled from the spec: the defined tail of the EMA(n) recurrence.
`emaFrom closes n seed k` is the EMA value at index `n - 1 + k`: the seed at
`k = 0` (index n−1) and `close(t)·α + EMA(t−1)·(1−α)` afterwards (spec §4.1).
The backend indicator engine is not in the sources. -/
def emaFrom (closes : List ℚ) (n : ℕ) (seed : ℚ) : ℕ → ℚ
  | 0 => seed
  | k + 1 =>
    closes.getD (n - 1 + (k + 1)) 0 * emaAlpha n
      + emaFrom closes n seed k * (1 - emaAlpha n)

/-- Modelled from the spec: the EMA(n) indicator series — undefined before
index n−1, seeded there with SMA(n) of the first n closes, recursive
afterwards (spec §4.1). -/
def emaSeries (closes : List ℚ) (n : ℕ) : List (Option ℚ) :=
  (List.range closes.length).map fun i =>
    if i + 1 < n then none
    else some (emaFrom closes n (smaFirst closes n) (i - (n - 1)))

/-- Modelled from the spec: the gain at index i, `max(close(i) − close(i−1), 0)`
(spec §4.1, RSI). -/
def gainAt (closes : List ℚ) (i : ℕ) : ℚ :=
  max (closes.getD i 0 - closes.getD (i - 1) 0) 0

/-- Modelled from the spec: the loss at index i, `max(close(i−1) − close(i), 0)`
(spec §4.1, RSI). -/
def lossAt (closes : List ℚ) (i : ℕ) : ℚ :=
  max (closes.getD (i - 1) 0 - closes.getD i 0) 0

/-- Modelled from the spec: Wilder's smoothed (avgGain, avgLoss) pair.
`wilderAvg closes n k` gives the averages used at index `n + k`: seeded with
the plain means of the first n gains/losses, then
`avg(t) = (avg(t−1)·(n−1) + new(t)) / n` (spec §4.1, RSI). -/
def wilderAvg (closes : List ℚ) (n : ℕ) : ℕ → ℚ × ℚ
  | 0 =>
    (((List.range n).map (fun j => gainAt closes (j + 1))).sum / n,
     ((List.range n).map (fun j => lossAt closes (j + 1))).sum / n)
  | k + 1 =>
    let p := wilderAvg closes n k
    ((p.1 * (n - 1) + gainAt closes (n + k + 1)) / n,
     (p.2 * (n - 1) + lossAt closes (n + k + 1)) / n)

/-- Modelled from the spec: the RSI value from an (avgGain, avgLoss) pair —
defined as 100 when avgLoss = 0 exactly (not a division fault), otherwise
`100 − 100/(1 + avgGain/avgLoss)` clamped to [0, 100] (spec §4.1, RSI). -/
def rsiValue (avgGain avgLoss : ℚ) : ℚ :=
  if avgLoss = 0 then 100
  else min 100 (max 0 (100 - 100 / (1 + avgGain / avgLoss)))

/-- Modelled from the spec: the RSI(n) indicator series — undefined before
index n (n price changes are needed), Wilder-smoothed afterwards
(spec §4.1, RSI).  The backend indicator engine is not in the sources. -/
def rsiSeries (closes : List ℚ) (n : ℕ) : List (Option ℚ) :=
  (List.range closes.length).map fun i =>
    if i < n then none
    else some (rsiValue (wilderAvg closes n (i - n)).1 (wilderAvg closes n (i - n)).2)

/-- Modelled from the spec: the running maximum `peak_so_far(t)` of an
equity curve — the maximum of the values up to and including index t,
never reset (spec §4.3).  The backend risk reducer is not in the sources. -/
def peakSoFar (equity : List ℚ) (t : ℕ) : ℚ :=
  (equity.take (t + 1)).foldl max (equity.headD 0)

/-- Modelled from the spec: the drawdown at index t,
`(peak_so_far(t) − E(t)) / peak_so_far(t)` (spec §4.3). -/
def drawdownAt (equity : List ℚ) (t : ℕ) : ℚ :=
  (peakSoFar equity t - equity.getD t 0) / peakSoFar equity t

/-- Modelled from the spec: max drawdown as a fraction — the maximum over
all indices t of `drawdownAt` (spec §4.3). -/
def maxDrawdown (equity : List ℚ) : ℚ :=
  ((List.range equity.length).map (drawdownAt equity)).foldl max 0

/-- Modelled from the spec: per-step simple return
`R(t) = (E(t) − E(t−1)) / E(t−1)` over a real-valued equity curve (spec §4.3). -/
noncomputable def simpleReturn (equity : List ℝ) (t : ℕ) : ℝ :=
  (equity.getD t 0 - equity.getD (t - 1) 0) / equity.getD (t - 1) 0

/-- Modelled from the spec: per-step log return `r(t) = ln(E(t)/E(t−1))`
(spec §4.3 and src/frontend/src/pages/MathReference.jsx, Return Calculations). -/
noncomputable def logReturn (equity : List ℝ) (t : ℕ) : ℝ :=
  Real.log (equity.getD t 0 / equity.getD (t - 1) 0)

/-- A closed round-trip trade (spec §3):
`{entry_time, exit_time, side, entry_price, exit_price, size, profit, profit_pct}`. -/
structure Trade where
  entry_time : ℕ
  exit_time : ℕ
  long : Bool
  entry_price : ℚ
  exit_price : ℚ
  size : ℚ
  profit : ℚ
  profit_pct : ℚ
deriving DecidableEq, Repr

/-- The winning trades of a ledger (profit strictly positive). -/
def winners (trades : List Trade) : List Trade :=
  trades.filter fun t => 0 < t.profit

/-- The losing trades of a ledger (profit strictly negative). -/
def losers (trades : List Trade) : List Trade :=
  trades.filter fun t => t.profit < 0

/-- Modelled from the spec: sum of the positive trade profits (spec §4.2). -/
def grossProfit (trades : List Trade) : ℚ :=
  ((winners trades).map (fun t => t.profit)).sum

/-- Modelled from the spec: sum of the negative trade profits (spec §4.2). -/
def grossLoss (trades : List Trade) : ℚ :=
  ((losers trades).map (fun t => t.profit)).sum

/-- Modelled from the spec: `win_rate = wins / total_trades`, 0 (not NaN)
when total_trades = 0 (spec §4.2). -/
def winRateOf (trades : List Trade) : ℚ :=
  if trades.length = 0 then 0 else ((winners trades).length : ℚ) / trades.length

/-- A profit-factor value: either a finite rational or the literal
`+∞`-sentinel the spec prescribes for zero losing trades with at least one
winning trade (spec §4.2). -/
inductive PFValue where
  | fin (q : ℚ)
  | posInf
deriving DecidableEq, Repr

/-- Modelled from the spec:
`profit_factor = Σ(profit | profit>0) / |Σ(profit | profit<0)|`, the
`+∞`-sentinel when there are zero losing trades and at least one winning
trade, and 0 when there are no trades at all (spec §4.2). -/
def profitFactorOf (trades : List Trade) : PFValue :=
  if trades.isEmpty then .fin 0
  else if grossLoss trades = 0 then
    if 0 < grossProfit trades then .posInf else .fin 0
  else .fin (grossProfit trades / |grossLoss trades|)

/-- Modelled from the spec: total return of a run as a percentage of the
initial capital. -/
def totalReturnOf (capital0 finalEquity : ℚ) : ℚ :=
  (finalEquity - capital0) / capital0 * 100

/-- Modelled from the spec: the strategy/risk configuration (spec §6), with
the entry/exit signals abstracted as per-step predicates (spec §4.2: the
strategy's signal, e.g. an indicator threshold crossing). -/
structure StrategyConfig where
  entrySignal : ℕ → Bool
  exitSignal : ℕ → Bool
  stop_loss_pct : ℚ
  take_profit_pct : ℚ
  min_holding_period : ℕ
  max_position_size : ℚ

/-- Modelled from the spec: an open Position —
`{side: long, entry_price, entry_time, size}` (spec §3, long-only). -/
structure OpenPosition where
  entry_price : ℚ
  entry_time : ℕ
  size : ℚ
deriving DecidableEq, Repr

/-- Transient simulation state: at most one open position, current equity,
and the append-only trade ledger (spec §3, §4.2). -/
structure SimState where
  pos : Option OpenPosition
  equity : ℚ
  trades : List Trade
deriving DecidableEq, Repr

/-- Modelled from the spec: close an open position at step `t` and price
`price`, producing a Trade with `profit = (exit_price − entry_price) × size`
(spec §4.2, long position). -/
def mkTrade (p : OpenPosition) (t : ℕ) (price : ℚ) : Trade :=
  { entry_time := p.entry_time
    exit_time := t
    long := true
    entry_price := p.entry_price
    exit_price := price
    size := p.size
    profit := (price - p.entry_price) * p.size
    profit_pct :=
      if p.entry_price = 0 then 0
      else (price - p.entry_price) / p.entry_price * 100 }

/-- Modelled from the spec: step phase (1) — if in a position, evaluate exit
conditions in order stop-loss, take-profit, strategy exit signal gated by
the minimum-holding-period guard; on exit append the Trade and update
equity (spec §4.2). -/
def stepExit (cfg : StrategyConfig) (t : ℕ) (c : Candle) (st : SimState) : SimState :=
  match st.pos with
  | none => st
  | some p =>
    let stopHit := c.close ≤ p.entry_price * (1 - cfg.stop_loss_pct / 100)
    let tpHit := p.entry_price * (1 + cfg.take_profit_pct / 100) ≤ c.close
    let sigExit := cfg.exitSignal t = true ∧ p.entry_time + cfg.min_holding_period ≤ t
    if stopHit ∨ tpHit ∨ sigExit then
      let tr := mkTrade p t c.close
      { pos := none, equity := st.equity + tr.profit, trades := st.trades ++ [tr] }
    else st

/-- Modelled from the spec: step phase (2) — only if still FLAT, evaluate the
entry signal and open a position sized
`max_position_size × current_equity / price` (spec §4.2). -/
def stepEntry (cfg : StrategyConfig) (t : ℕ) (c : Candle) (st : SimState) : SimState :=
  match st.pos with
  | some _ => st
  | none =>
    if cfg.entrySignal t then
      { st with
          pos := some
            { entry_price := c.close
              entry_time := t
              size := cfg.max_position_size * st.equity / c.close } }
    else st

/-- Modelled from the spec: one simulation step — exit evaluation first, then
entry evaluation (spec §4.2, fixed order). -/
def simStep (cfg : StrategyConfig) (t : ℕ) (c : Candle) (st : SimState) : SimState :=
  stepEntry cfg t c (stepExit cfg t c st)

/-- Modelled from the spec: the simulation loop over the candle series,
recording one equity value per step (spec §3, EquityCurve). -/
def simLoop (cfg : StrategyConfig) : List Candle → ℕ → SimState → SimState × List ℚ
  | [], _, st => (st, [])
  | c :: rest, t, st =>
    let st2 := simStep cfg t c st
    let r := simLoop cfg rest (t + 1) st2
    (r.1, st2.equity :: r.2)

/-- Modelled from the spec: termination — any open position at series end is
forcibly closed at the final close price (spec §4.2). -/
def forceClose (series : List Candle) (st : SimState) : SimState :=
  match st.pos, series.getLast? with
  | some p, some c =>
    let tr := mkTrade p (series.length - 1) c.close
    { pos := none, equity := st.equity + tr.profit, trades := st.trades ++ [tr] }
  | _, _ => st

/-- The BacktestResult value object: equity curve, trade ledger and the
derived summary (spec §3). -/
structure BacktestResult where
  equity_curve : List ℚ
  trades : List Trade
  total_return : ℚ
  win_rate : ℚ
  profit_factor : PFValue
  total_trades : ℕ
deriving DecidableEq, Repr

/-- Modelled from the spec: a full backtest run — simulate from initial
capital, force-close at series end, and derive the summary fields from the
ledger (spec §4.2).  The backend simulator is not in the sources. -/
def runBacktestCore (cfg : StrategyConfig) (series : List Candle) (capital0 : ℚ) :
    BacktestResult :=
  let r := simLoop cfg series 0 { pos := none, equity := capital0, trades := [] }
  let fin := forceClose series r.1
  { equity_curve := capital0 :: r.2
    trades := fin.trades
    total_return := totalReturnOf capital0 fin.equity
    win_rate := winRateOf fin.trades
    profit_factor := profitFactorOf fin.trades
    total_trades := fin.trades.length }

/-- The error taxonomy (spec §7): insufficient data, invalid series,
invalid configuration. -/
inductive CoreError where
  | insufficientDataError
  | invalidSeriesError
  | invalidConfigError
deriving DecidableEq, Repr

/-- Modelled from the spec: series validity — strictly increasing timestamps
and no negative prices or volumes (spec §7, InvalidSeriesError). -/
def ValidSeries (series : List Candle) : Prop :=
  (series.map (fun c => c.timestamp)).Chain' (· < ·) ∧
    ∀ c ∈ series, 0 ≤ c.open_ ∧ 0 ≤ c.high ∧ 0 ≤ c.low ∧ 0 ≤ c.close ∧ 0 ≤ c.volume

instance (series : List Candle) : Decidable (ValidSeries series) := by
  unfold ValidSeries
  infer_instance

/-- Modelled from the spec: configuration validity — thresholds in range, in
particular no negative stop-loss or take-profit and a position-size fraction
in [0, 1] (spec §7, InvalidConfigError). -/
def ValidConfig (cfg : StrategyConfig) : Prop :=
  0 ≤ cfg.stop_loss_pct ∧ 0 ≤ cfg.take_profit_pct ∧
    0 ≤ cfg.max_position_size ∧ cfg.max_position_size ≤ 1

instance (cfg : StrategyConfig) : Decidable (ValidConfig cfg) := by
  unfold ValidConfig
  infer_instance

/-- The supported indicator kinds of the modelled engine. -/
inductive IndicatorKind where
  | smaKind
  | emaKind
  | rsiKind
deriving DecidableEq, Repr

/-- An indicator request: a kind and a period. -/
structure IndicatorRequest where
  kind : IndicatorKind
  period : ℕ
deriving DecidableEq, Repr

/-- Modelled from the spec: indicator computation with validation — a period
greater than the series length fails with `insufficientDataError` before
anything is computed, an invalid series fails with `invalidSeriesError`,
and otherwise the full series is produced (spec §4.1, §7). -/
def computeIndicator (series : List Candle) (req : IndicatorRequest) :
    Except CoreError (List (Option ℚ)) :=
  if series.length < req.period then .error .insufficientDataError
  else if ¬ ValidSeries series then .error .invalidSeriesError
  else
    .ok
      (match req.kind with
        | .smaKind => smaSeries (series.map (fun c => c.close)) req.period
        | .emaKind => emaSeries (series.map (fun c => c.close)) req.period
        | .rsiKind => rsiSeries (series.map (fun c => c.close)) req.period)

/-- Modelled from the spec: the checked backtest entry point — all validation
failures are raised before any simulation step runs, and an invalid input
yields an error with no partial result (spec §7). -/
def runBacktestChecked (cfg : StrategyConfig) (series : List Candle) (capital0 : ℚ) :
    Except CoreError BacktestResult :=
  if ¬ ValidSeries series then .error .invalidSeriesError
  else if ¬ ValidConfig cfg then .error .invalidConfigError
  else .ok (runBacktestCore cfg series capital0)

/-- The latest-price object the Dashboard receives; its `close` field is
read directly (src/unnamed/part_004, Dashboard, line 59). -/
structure LatestPrice where
  close : ℚ
deriving DecidableEq, Repr

/-- A market-data candle as the Dashboard indexes it: the close may be
absent (JavaScript `undefined`/`null`), modelled as `Option ℚ`. -/
structure MarketCandle where
  timestamp : ℕ
  close : Option ℚ
deriving DecidableEq, Repr

/-- Dashboard's `calculateChange` (src/unnamed/part_004, lines 55–60):
returns 0 when `latestPrice` is absent or fewer than two candles exist;
reads the second-to-last candle's close and returns 0 when it is missing or
0 (the JavaScript falsiness test plus the explicit `=== 0` check); otherwise
`((latest close − previous close) / previous close) × 100`. -/
def calculateChange (latestPrice : Option LatestPrice) (marketData : List MarketCandle) : ℚ :=
  match latestPrice with
  | none => 0
  | some lp =>
    if marketData.length < 2 then 0
    else
      match (marketData.getD (marketData.length - 2) ⟨0, none⟩).close with
      | none => 0
      | some pc => if pc = 0 then 0 else (lp.close - pc) / pc * 100

/-- The `model` sub-object of the Settings page state
(src/frontend/src/pages/Settings.jsx, lines 6–27). -/
structure ModelSettings where
  model_name : String
  model_version : String
  sequence_length : ℚ
  use_gpu : Bool
deriving DecidableEq, Repr

/-- The `risk` sub-object of the Settings page state. -/
structure RiskSettings where
  max_position_size : ℚ
  stop_loss_pct : ℚ
  take_profit_pct : ℚ
  max_daily_loss : ℚ
  max_leverage : ℚ
deriving DecidableEq, Repr

/-- The `trading` sub-object of the Settings page state. -/
structure TradingSettings where
  strategy : String
  indicators : List String
  entry_threshold : ℚ
  exit_threshold : ℚ
  min_holding_period : ℚ
deriving DecidableEq, Repr

/-- The whole Settings page state: model, risk and trading sub-objects. -/
structure AppSettings where
  model : ModelSettings
  risk : RiskSettings
  trading : TradingSettings
deriving DecidableEq, Repr

/-- The dynamic key passed to `updateModelSetting`. -/
inductive ModelKey where
  | model_name
  | model_version
  | sequence_length
  | use_gpu
deriving DecidableEq, Repr

/-- A JavaScript value passed to a settings updater: string, number or
boolean. -/
inductive SettingValue where
  | str (v : String)
  | num (v : ℚ)
  | flag (v : Bool)
deriving DecidableEq, Repr

/-- The spread `{...settings.model, [key]: value}`: replace the named field
of the model sub-object, leaving the others as they were
(src/frontend/src/pages/Settings.jsx, lines 65–68). -/
def setModelField (m : ModelSettings) (key : ModelKey) (value : SettingValue) : ModelSettings :=
  match key, value with
  | .model_name, .str v => { m with model_name := v }
  | .model_version, .str v => { m with model_version := v }
  | .sequence_length, .num v => { m with sequence_length := v }
  | .use_gpu, .flag v => { m with use_gpu := v }
  | _, _ => m

/-- Settings page `updateModelSetting` (src/frontend/src/pages/Settings.jsx,
lines 59–69): returns the state unchanged for keys `model_name` and
`model_version` (the model identity is fixed), and otherwise replaces only
the addressed field of the `model` sub-object. -/
def updateModelSetting (settings : AppSettings) (key : ModelKey) (value : SettingValue) :
    AppSettings :=
  match key with
  | .model_name => settings
  | .model_version => settings
  | _ => { settings with model := setModelField settings.model key value }

/-- The defined EMA(n) value at index t (for t ≥ n−1), unwrapped from the
series. -/
def emaVal (closes : List ℚ) (n : ℕ) (t : ℕ) : ℚ :=
  emaFrom closes n (smaFirst closes n) (t - (n - 1))

/-- A strategy configuration whose entry signal never fires, with the
Settings-page default risk numbers. -/
def neverEntryConfig : StrategyConfig :=
  { entrySignal := fun _ => false
    exitSignal := fun _ => false
    stop_loss_pct := 2
    take_profit_pct := 5
    min_holding_period := 1
    max_position_size := 1 / 10 }

/-- A configuration with a negative stop-loss, an out-of-range threshold. -/
def negStopConfig : StrategyConfig :=
  { entrySignal := fun _ => false
    exitSignal := fun _ => false
    stop_loss_pct := -1
    take_profit_pct := 5
    min_holding_period := 1
    max_position_size := 1 / 10 }

/-- A sample winning trade: long 100 → 105, size 1, profit 5. -/
def winTrade : Trade :=
  { entry_time := 0, exit_time := 1, long := true, entry_price := 100,
    exit_price := 105, size := 1, profit := 5, profit_pct := 5 }

/-- A sample losing trade: long 100 → 95, size 1, profit −5. -/
def lossTrade : Trade :=
  { entry_time := 2, exit_time := 3, long := true, entry_price := 100,
    exit_price := 95, size := 1, profit := -5, profit_pct := -5 }

/-- A sample candle. -/
def sampleCandle : Candle :=
  { timestamp := 0, open_ := 100, high := 101, low := 99, close := 100,
    volume := 1000 }

/-- A sample two-candle series with duplicate timestamps (invalid). -/
def dupSeries : List Candle := [sampleCandle, sampleCandle]

/-- Reading an indicator series built by mapping over `List.range`:
in range one gets the generator's value, out of range the default. -/
lemma map_range_getD {α : Type} (f : ℕ → α) (d : α) (len i : ℕ) :
    ((List.range len).map f).getD i d = if i < len then f i else d := by
  rcases Nat.lt_or_ge i len with h | h
  · rw [if_pos h, List.getD_eq_getElem?_getD, List.getElem?_map,
      List.getElem?_range h]
    rfl
  · rw [if_neg (Nat.not_lt.2 h), List.getD_eq_getElem?_getD, List.getElem?_map,
      List.getElem?_eq_none (by simpa using h)]
    rfl

/-- A left fold of `max` never goes below its initial value. -/
lemma init_le_foldl_max (l : List ℚ) (b : ℚ) : b ≤ l.foldl max b := by
  induction l generalizing b with
  | nil => exact le_rfl
  | cons x xs ih => exact le_trans (le_max_left b x) (ih (max b x))

/-- A left fold of `max` stays below any common upper bound. -/
lemma foldl_max_le (l : List ℚ) (b c : ℚ) (hb : b ≤ c) (h : ∀ x ∈ l, x ≤ c) :
    l.foldl max b ≤ c := by
  induction l generalizing b with
  | nil => exact hb
  | cons x xs ih =>
    exact ih (max b x) (max_le hb (h x (List.mem_cons_self x xs)))
      (fun y hy => h y (List.mem_cons_of_mem x hy))

/-- Negating every element of a list negates its sum. -/
lemma sum_map_neg (l : List ℚ) : (l.map Neg.neg).sum = -l.sum := by
  induction l with
  | nil => simp
  | cons x xs ih =>
    simp only [List.map_cons, List.sum_cons, ih]
    ring

/-- A nonempty list of negative rationals has a negative sum. -/
lemma sum_neg_of_mem_neg (l : List ℚ) (h : ∀ x ∈ l, x < 0) (hne : l ≠ []) :
    l.sum < 0 := by
  have hpos : 0 < (l.map Neg.neg).sum := by
    refine List.sum_pos _ (fun x hx => ?_) (by simpa using hne)
    rcases List.mem_map.1 hx with ⟨y, hy, rfl⟩
    simpa using h y hy
  rw [sum_map_neg] at hpos
  linarith

/-- With an entry signal that never fires, the simulation loop leaves a flat
state untouched. -/
lemma simLoop_flat (cfg : StrategyConfig) (hnever : ∀ u, cfg.entrySignal u = false)
    (cs : List Candle) (t : ℕ) (st : SimState) (hpos : st.pos = none) :
    (simLoop cfg cs t st).1 = st := by
  induction cs generalizing t st with
  | nil => rfl
  | cons c rest ih =>
    obtain ⟨pos, e, tr⟩ := st
    dsimp only at hpos
    subst hpos
    have hstep : simStep cfg t c ⟨none, e, tr⟩ = ⟨none, e, tr⟩ := by
      simp [simStep, stepExit, stepEntry, hnever t]
    show (simLoop cfg (c :: rest) t ⟨none, e, tr⟩).1 = _
    simp only [simLoop, hstep]
    exact ih (t + 1) ⟨none, e, tr⟩ rfl

/-- Force-closing a flat state changes nothing. -/
lemma forceClose_flat (series : List Candle) (st : SimState) (hpos : st.pos = none) :
    forceClose series st = st := by
  obtain ⟨pos, e, tr⟩ := st
  dsimp only at hpos
  subst hpos
  unfold forceClose
  cases series.getLast? <;> rfl

/-- C10: `updateModelSetting` leaves the settings state entirely unchanged
for keys `model_name` and `model_version`; for `sequence_length` and
`use_gpu` it updates only that field of the model sub-object; and for every
key the risk and trading sub-objects are unchanged. -/
theorem update_model_setting_spec :
    ∀ (settings : AppSettings) (value : SettingValue),
      updateModelSetting settings .model_name value = settings ∧
      updateModelSetting settings .model_version value = settings ∧
      (∀ q : ℚ,
        (updateModelSetting settings .sequence_length (.num q)).model.sequence_length = q ∧
        (updateModelSetting settings .sequence_length (.num q)).model.model_name
          = settings.model.model_name ∧
        (updateModelSetting settings .sequence_length (.num q)).model.model_version
          = settings.model.model_version ∧
        (updateModelSetting settings .sequence_length (.num q)).model.use_gpu
          = settings.model.use_gpu) ∧
      (∀ b : Bool,
        (updateModelSetting settings .use_gpu (.flag b)).model.use_gpu = b ∧
        (updateModelSetting settings .use_gpu (.flag b)).model.model_name
          = settings.model.model_name ∧
        (updateModelSetting settings .use_gpu (.flag b)).model.model_version
          = settings.model.model_version ∧
        (updateModelSetting settings .use_gpu (.flag b)).model.sequence_length
          = settings.model.sequence_length) ∧
      (∀ (key : ModelKey) (v : SettingValue),
        (updateModelSetting settings key v).risk = settings.risk ∧
        (updateModelSetting settings key v).trading = settings.trading) := by
  intro settings value
  refine ⟨rfl, rfl, fun q => ⟨rfl, rfl, rfl, rfl⟩, fun b => ⟨rfl, rfl, rfl, rfl⟩,
    fun key v => ?_⟩
  cases key <;> exact ⟨rfl, rfl⟩

/-- C9: Dashboard's `calculateChange` returns 0 whenever `latestPrice` is
absent, fewer than two candles exist, or the previous candle's close is
missing or 0; otherwise it returns
`(latest close − previous close) / previous close × 100`, so it never
divides by zero. -/
theorem calculate_change_spec :
    ∀ (lp : Option LatestPrice) (marketData : List MarketCandle),
      (lp = none → calculateChange lp marketData = 0) ∧
      (marketData.length < 2 → calculateChange lp marketData = 0) ∧
      (∀ p, lp = some p → 2 ≤ marketData.length →
        (marketData.getD (marketData.length - 2) ⟨0, none⟩).close = none →
        calculateChange lp marketData = 0) ∧
      (∀ p, lp = some p → 2 ≤ marketData.length →
        (marketData.getD (marketData.length - 2) ⟨0, none⟩).close = some 0 →
        calculateChange lp marketData = 0) ∧
      (∀ p pc, lp = some p → 2 ≤ marketData.length →
        (marketData.getD (marketData.length - 2) ⟨0, none⟩).close = some pc →
        pc ≠ 0 →
        calculateChange lp marketData = (p.close - pc) / pc * 100) := by
  intro lp marketData
  refine ⟨?_, ?_, ?_, ?_, ?_⟩
  · rintro rfl
    rfl
  · intro hlen
    cases lp with
    | none => rfl
    | some p => simp [calculateChange, hlen]
  · rintro p rfl hlen hclose
    rw [List.getD_eq_getElem?_getD] at hclose
    simp [calculateChange, Nat.not_lt.2 hlen, hclose]
  · rintro p rfl hlen hclose
    rw [List.getD_eq_getElem?_getD] at hclose
    simp [calculateChange, Nat.not_lt.2 hlen, hclose]
  · rintro p pc rfl hlen hclose hpc
    rw [List.getD_eq_getElem?_getD] at hclose
    simp [calculateChange, Nat.not_lt.2 hlen, hclose, hpc]

/-- Witness for C9 at concrete inputs: with latest close 105 and previous
close 102 the change is 50/17 %, and with no latest price the result is 0. -/
theorem calculate_change_spec_witness :
    calculateChange (some ⟨105⟩) [⟨0, some 100⟩, ⟨1, some 102⟩, ⟨2, some 104⟩]
      = ((105 : ℚ) - 102) / 102 * 100 ∧
    calculateChange none [] = 0 := by
  constructor
  · exact (calculate_change_spec (some ⟨105⟩)
      [⟨0, some 100⟩, ⟨1, some 102⟩, ⟨2, some 104⟩]).2.2.2.2 ⟨105⟩ 102 rfl
      (by decide) rfl (by decide)
  · exact (calculate_change_spec none []).1 rfl

/-- C4: SMA(n) is undefined (`none`) before index n−1 and the arithmetic
mean of the last n closes from index n−1 on; for closes
[100,102,104,103,105], SMA(3) is exactly
[none, none, 102, 103, 104]; and ChartView attaches no numeric field for a
null indicator value, so warm-up positions carry no signal. -/
theorem sma_warmup_spec :
    (∀ (closes : List ℚ) (n i : ℕ), i < closes.length → i + 1 < n →
      (smaSeries closes n).getD i (some 0) = none) ∧
    (∀ (closes : List ℚ) (n i : ℕ), i < closes.length → n ≠ 0 → n ≤ i + 1 →
      (smaSeries closes n).getD i none
        = some (((closes.take (i + 1)).drop (i + 1 - n)).sum / n)) ∧
    smaSeries [100, 102, 104, 103, 105] 3
      = [none, none, some 102, some 103, some 104] ∧
    (∀ (c : Candle) (s50 r : Option ℚ), (chartPoint c none s50 r).sma20 = none) := by
  refine ⟨?_, ?_, by norm_num [smaSeries, smaAt, List.range_succ], fun c s50 r => rfl⟩
  · intro closes n i hi hw
    rw [smaSeries, map_range_getD, if_pos hi, smaAt,
      if_neg (by omega)]
  · intro closes n i hi hn hw
    rw [smaSeries, map_range_getD, if_pos hi, smaAt,
      if_pos ⟨hn, hw⟩]

/-- Witness for C4 at concrete inputs: for closes [100,102,104,103,105] and
n = 3, index 1 is undefined and index 4 is the mean of the last three
closes. -/
theorem sma_warmup_spec_witness :
    (smaSeries [100, 102, 104, 103, 105] 3).getD 1 (some 0) = none ∧
    (smaSeries [100, 102, 104, 103, 105] 3).getD 4 none
      = some ((([(100 : ℚ), 102, 104, 103, 105].take 5).drop 2).sum / 3) := by
  exact ⟨sma_warmup_spec.1 [100, 102, 104, 103, 105] 3 1 (by decide) (by decide),
    sma_warmup_spec.2.1 [100, 102, 104, 103, 105] 3 4 (by decide) (by decide)
      (by decide)⟩

/-- C5 counterexample: an equity curve with positive initial value but a
negative later value has max drawdown 3/2 > 1, so positive initial value
alone does not keep the claimed [0, 1] range. -/
theorem max_drawdown_range_counterexample :
    (0 : ℚ) < ([10000, -5000] : List ℚ).headD 0 ∧
    maxDrawdown [10000, -5000] = 3 / 2 ∧
    ¬ maxDrawdown [10000, -5000] ≤ 1 := by
  refine ⟨by norm_num, ?_, ?_⟩ <;>
    norm_num [maxDrawdown, drawdownAt, peakSoFar, List.range_succ, max_def]

/-- C5 (amended): max drawdown — the maximum over t of
`(peak_so_far(t) − E(t)) / peak_so_far(t)` with a never-reset running peak —
is non-negative for every equity curve with positive initial value, lies in
[0, 1] when additionally every equity value is non-negative, and equals
1/15 (≈ 6.67 %) for [10000, 10500, 9800, 11000]. -/
theorem max_drawdown_spec_amended :
    (∀ equity : List ℚ, 0 < equity.headD 0 → 0 ≤ maxDrawdown equity) ∧
    (∀ equity : List ℚ, 0 < equity.headD 0 → (∀ e ∈ equity, 0 ≤ e) →
      maxDrawdown equity ≤ 1) ∧
    maxDrawdown [10000, 10500, 9800, 11000] = 1 / 15 := by
  refine ⟨?_, ?_,
    by norm_num [maxDrawdown, drawdownAt, peakSoFar, List.range_succ, max_def]⟩
  · intro equity _
    exact init_le_foldl_max _ 0
  · intro equity h0 hall
    refine foldl_max_le _ 0 1 (by norm_num) ?_
    intro x hx
    rcases List.mem_map.1 hx with ⟨t, ht, rfl⟩
    have htlen : t < equity.length := List.mem_range.1 ht
    have hpeak : 0 < peakSoFar equity t :=
      lt_of_lt_of_le h0 (init_le_foldl_max _ _)
    have he : 0 ≤ equity.getD t 0 := by
      rw [List.getD_eq_getElem equity 0 htlen]
      exact hall _ (equity.getElem_mem htlen)
    rw [drawdownAt, div_le_one hpeak]
    linarith

/-- Witness for the amended C5 at a concrete input: the example curve has a
positive head, non-negative values, and its max drawdown lies in [0, 1]. -/
theorem max_drawdown_spec_amended_witness :
    0 ≤ maxDrawdown [10000, 10500, 9800, 11000] ∧
    maxDrawdown [10000, 10500, 9800, 11000] ≤ 1 := by
  constructor
  · exact max_drawdown_spec_amended.1 [10000, 10500, 9800, 11000] (by norm_num)
  · exact max_drawdown_spec_amended.2.1 [10000, 10500, 9800, 11000] (by norm_num)
      (by intro e he; fin_cases he <;> norm_num)

/-- C6: the RSI value is 100 exactly when avgLoss = 0 (no division fault),
and every defined entry of the RSI series lies in [0, 100]. -/
theorem rsi_bounds_spec :
    (∀ g : ℚ, rsiValue g 0 = 100) ∧
    (∀ (closes : List ℚ) (n i : ℕ) (v : ℚ),
      (rsiSeries closes n).getD i none = some v → 0 ≤ v ∧ v ≤ 100) := by
  constructor
  · intro g
    simp [rsiValue]
  · intro closes n i v h
    rw [rsiSeries, map_range_getD] at h
    by_cases hi : i < closes.length
    · rw [if_pos hi] at h
      by_cases hw : i < n
      · rw [if_pos hw] at h
        exact absurd h (by simp)
      · rw [if_neg hw] at h
        obtain rfl : rsiValue _ _ = v := Option.some.inj h
        rw [rsiValue]
        by_cases hl : (wilderAvg closes n (i - n)).2 = 0
        · rw [if_pos hl]
          norm_num
        · rw [if_neg hl]
          exact ⟨le_min (by norm_num) (le_max_left 0 _), min_le_left _ _⟩
    · rw [if_neg hi] at h
      exact absurd h (by simp)

/-- Witness for C6 at a concrete input: RSI(3) of
[100,102,104,103,105,107] is defined at index 3 with value 80 ∈ [0, 100]. -/
theorem rsi_bounds_spec_witness :
    (rsiSeries [100, 102, 104, 103, 105, 107] 3).getD 3 none = some 80 ∧
    (0 : ℚ) ≤ 80 ∧ (80 : ℚ) ≤ 100 := by
  have hval : (rsiSeries [100, 102, 104, 103, 105, 107] 3).getD 3 none = some 80 := by
    norm_num [rsiSeries, rsiValue, wilderAvg, gainAt, lossAt, map_range_getD,
      List.range_succ, max_def]
  exact ⟨hval, rsi_bounds_spec.2 [100, 102, 104, 103, 105, 107] 3 3 80 hval⟩

/-- C7: EMA(n) is seeded at index n−1 with SMA(n) of the first n closes,
satisfies `EMA(t) = close(t)·α + EMA(t−1)·(1−α)` with α = 2/(n+1) for
t ≥ n, and is undefined at index 0 for n ≥ 2 — no ad hoc
`EMA(0) = close(0)` seeding. -/
theorem ema_seeding_spec :
    (∀ (closes : List ℚ) (n : ℕ), emaVal closes n (n - 1) = smaFirst closes n) ∧
    (∀ (closes : List ℚ) (n : ℕ), 1 ≤ n → n - 1 < closes.length →
      (emaSeries closes n).getD (n - 1) none = some (smaFirst closes n)) ∧
    (∀ (closes : List ℚ) (n t : ℕ), t < closes.length → n ≤ t + 1 →
      (emaSeries closes n).getD t none = some (emaVal closes n t)) ∧
    (∀ (closes : List ℚ) (n t : ℕ), 1 ≤ n → n ≤ t →
      emaVal closes n t
        = closes.getD t 0 * emaAlpha n + emaVal closes n (t - 1) * (1 - emaAlpha n)) ∧
    (∀ (closes : List ℚ) (n : ℕ), 2 ≤ n → closes ≠ [] →
      (emaSeries closes n).getD 0 (some 0) = none) := by
  refine ⟨?_, ?_, ?_, ?_, ?_⟩
  · intro closes n
    rw [emaVal, Nat.sub_self]
    rfl
  · intro closes n hn hlen
    rw [emaSeries, map_range_getD, if_pos hlen, if_neg (by omega), Nat.sub_self]
    rfl
  · intro closes n t ht hw
    rw [emaSeries, map_range_getD, if_pos ht, if_neg (by omega)]
    rfl
  · intro closes n t hn ht
    have hk : t - (n - 1) = (t - 1 - (n - 1)) + 1 := by omega
    have hidx : n - 1 + (t - 1 - (n - 1) + 1) = t := by omega
    rw [emaVal, hk, emaFrom, hidx]
    rfl
  · intro closes n hn hne
    rw [emaSeries, map_range_getD, if_pos (List.length_pos.2 hne),
      if_pos (by omega)]

/-- Witness for C7 at a concrete input: for closes [100,102,104,103,105]
and n = 3, the series is undefined at index 0, seeded at index 2 with the
SMA of the first three closes, and obeys the recurrence at t = 3. -/
theorem ema_seeding_spec_witness :
    (emaSeries [100, 102, 104, 103, 105] 3).getD 2 none
      = some (smaFirst [100, 102, 104, 103, 105] 3) ∧
    emaVal [100, 102, 104, 103, 105] 3 3
      = ([100, 102, 104, 103, 105] : List ℚ).getD 3 0 * emaAlpha 3
          + emaVal [100, 102, 104, 103, 105] 3 2 * (1 - emaAlpha 3) ∧
    (emaSeries [100, 102, 104, 103, 105] 3).getD 0 (some 0) = none := by
  exact ⟨ema_seeding_spec.2.1 [100, 102, 104, 103, 105] 3 (by decide) (by decide),
    ema_seeding_spec.2.2.2.1 [100, 102, 104, 103, 105] 3 3 (by decide) (by decide),
    ema_seeding_spec.2.2.2.2 [100, 102, 104, 103, 105] 3 (by decide) (by decide)⟩

/-- C8: simple and log returns of an equity curve round-trip —
`r = ln(1+R)` and `R = e^r − 1` at every step with positive equity values,
and for every simple return R > −1 the round trip
`exp(ln(1+R)) − 1` equals R (exactly, hence within 1e-9). -/
theorem returns_roundtrip_spec :
    (∀ (equity : List ℝ) (t : ℕ),
      0 < equity.getD (t - 1) 0 → 0 < equity.getD t 0 →
      logReturn equity t = Real.log (1 + simpleReturn equity t) ∧
      simpleReturn equity t = Real.exp (logReturn equity t) - 1) ∧
    (∀ R : ℝ, -1 < R → |Real.exp (Real.log (1 + R)) - 1 - R| ≤ 1e-9) := by
  constructor
  · intro equity t ha hb
    have hne : equity.getD (t - 1) 0 ≠ 0 := ne_of_gt ha
    have key1 : ∀ a b : ℝ, a ≠ 0 → 1 + (b - a) / a = b / a := by
      intro a b h
      field_simp
    have key2 : ∀ a b : ℝ, a ≠ 0 → (b - a) / a = b / a - 1 := by
      intro a b h
      rw [sub_div, div_self h]
    have h1 : 1 + simpleReturn equity t = equity.getD t 0 / equity.getD (t - 1) 0 := by
      rw [simpleReturn]
      exact key1 _ _ hne
    constructor
    · rw [logReturn, h1]
    · rw [logReturn, Real.exp_log (div_pos hb ha), simpleReturn]
      exact key2 _ _ hne
  · intro R hR
    have hpos : (0 : ℝ) < 1 + R := by linarith
    have hz : (1 : ℝ) + R - 1 - R = 0 := by ring
    rw [Real.exp_log hpos, hz, abs_zero]
    norm_num

/-- Witness for C8 at a concrete input: the equity step 1 → 2 has log
return ln 2 = ln(1 + simple return), and R = 1 round-trips. -/
theorem returns_roundtrip_spec_witness :
    logReturn [1, 2] 1 = Real.log (1 + simpleReturn [1, 2] 1) ∧
    |Real.exp (Real.log (1 + (1 : ℝ))) - 1 - 1| ≤ 1e-9 := by
  constructor
  · exact (returns_roundtrip_spec.1 [1, 2] 1 (by norm_num [List.getD])
      (by norm_num [List.getD])).1
  · exact returns_roundtrip_spec.2 1 (by norm_num)

/-- C1: the summary win_rate is the winning-trade count divided by the trade
count, 0 (not NaN) when there are no trades, and a run whose strategy never
triggers entry produces total_trades = 0, total_return = 0 and win_rate = 0. -/
theorem backtest_summary_spec :
    ∀ (cfg : StrategyConfig) (series : List Candle) (capital0 : ℚ),
      ((runBacktestCore cfg series capital0).total_trades = 0 →
        (runBacktestCore cfg series capital0).win_rate = 0) ∧
      ((runBacktestCore cfg series capital0).total_trades ≠ 0 →
        (runBacktestCore cfg series capital0).win_rate
          = ((winners (runBacktestCore cfg series capital0).trades).length : ℚ)
              / (runBacktestCore cfg series capital0).total_trades) ∧
      ((∀ u, cfg.entrySignal u = false) →
        (runBacktestCore cfg series capital0).total_trades = 0 ∧
        (runBacktestCore cfg series capital0).total_return = 0 ∧
        (runBacktestCore cfg series capital0).win_rate = 0) := by
  intro cfg series capital0
  have hwr : (runBacktestCore cfg series capital0).win_rate
      = winRateOf (forceClose series (simLoop cfg series 0 ⟨none, capital0, []⟩).1).trades :=
    rfl
  have htt : (runBacktestCore cfg series capital0).total_trades
      = (forceClose series (simLoop cfg series 0 ⟨none, capital0, []⟩).1).trades.length :=
    rfl
  have htrades : (runBacktestCore cfg series capital0).trades
      = (forceClose series (simLoop cfg series 0 ⟨none, capital0, []⟩).1).trades :=
    rfl
  refine ⟨?_, ?_, ?_⟩
  · intro h
    rw [htt] at h
    rw [hwr, winRateOf, if_pos h]
  · intro h
    rw [htt] at h
    rw [hwr, htrades, htt, winRateOf, if_neg h]
  · intro hnever
    have hflat : (simLoop cfg series 0 ⟨none, capital0, []⟩).1 = ⟨none, capital0, []⟩ :=
      simLoop_flat cfg hnever series 0 _ rfl
    have hfc : forceClose series (simLoop cfg series 0 ⟨none, capital0, []⟩).1
        = ⟨none, capital0, []⟩ := by
      rw [hflat]
      exact forceClose_flat _ _ rfl
    refine ⟨by rw [htt, hfc]; rfl, ?_, by rw [hwr, hfc]; rfl⟩
    have htr : (runBacktestCore cfg series capital0).total_return
        = totalReturnOf capital0
            (forceClose series (simLoop cfg series 0 ⟨none, capital0, []⟩).1).equity :=
      rfl
    rw [htr, hfc, totalReturnOf]
    simp

/-- Witness for C1 at a concrete input: a one-candle run with the
never-entry configuration has no trades, zero total return and zero win
rate, and its zero trade count forces win_rate = 0 through the first
conjunct as well. -/
theorem backtest_summary_spec_witness :
    ((runBacktestCore neverEntryConfig [sampleCandle] 10000).total_trades = 0 ∧
      (runBacktestCore neverEntryConfig [sampleCandle] 10000).total_return = 0 ∧
      (runBacktestCore neverEntryConfig [sampleCandle] 10000).win_rate = 0) ∧
    (runBacktestCore neverEntryConfig [sampleCandle] 10000).win_rate = 0 := by
  have h := backtest_summary_spec neverEntryConfig [sampleCandle] 10000
  have hmain := h.2.2 (fun u => rfl)
  exact ⟨hmain, h.1 hmain.1⟩

/-- C2: the profit factor is gross profit over |gross loss| whenever a
losing trade exists, the +∞ sentinel when there are no losing trades but at
least one winning trade, 0 when there are no trades at all, and the
backtest summary field is exactly this value of the run's ledger. -/
theorem profit_factor_spec :
    (∀ trades : List Trade, trades = [] → profitFactorOf trades = .fin 0) ∧
    (∀ trades : List Trade, losers trades = [] → winners trades ≠ [] →
      profitFactorOf trades = .posInf) ∧
    (∀ trades : List Trade, losers trades ≠ [] →
      profitFactorOf trades
        = .fin (grossProfit trades / |grossLoss trades|)) ∧
    (∀ (cfg : StrategyConfig) (series : List Candle) (capital0 : ℚ),
      (runBacktestCore cfg series capital0).profit_factor
        = profitFactorOf (runBacktestCore cfg series capital0).trades) := by
  refine ⟨?_, ?_, ?_, fun cfg series capital0 => rfl⟩
  · rintro trades rfl
    rfl
  · intro trades hl hw
    have hempty : trades ≠ [] := by
      rintro rfl
      exact hw rfl
    have hgl : grossLoss trades = 0 := by
      rw [grossLoss, hl]
      rfl
    have hgp : 0 < grossProfit trades := by
      refine List.sum_pos _ (fun x hx => ?_) (by simpa using hw)
      rcases List.mem_map.1 hx with ⟨tr, htr, rfl⟩
      exact of_decide_eq_true (List.mem_filter.1 htr).2
    rw [profitFactorOf, if_neg (by simpa using hempty), if_pos hgl, if_pos hgp]
  · intro trades hl
    have hempty : trades ≠ [] := by
      rintro rfl
      exact hl rfl
    have hgl : grossLoss trades < 0 := by
      refine sum_neg_of_mem_neg _ (fun x hx => ?_) (by simpa using hl)
      rcases List.mem_map.1 hx with ⟨tr, htr, rfl⟩
      exact of_decide_eq_true (List.mem_filter.1 htr).2
    rw [profitFactorOf, if_neg (by simpa using hempty), if_neg (ne_of_lt hgl)]

/-- Witness for C2 at concrete ledgers: no trades gives 0, a single winning
trade gives the +∞ sentinel, and a win plus a loss gives the finite ratio. -/
theorem profit_factor_spec_witness :
    profitFactorOf [] = .fin 0 ∧
    profitFactorOf [winTrade] = .posInf ∧
    profitFactorOf [winTrade, lossTrade]
      = .fin (grossProfit [winTrade, lossTrade] / |grossLoss [winTrade, lossTrade]|) := by
  refine ⟨profit_factor_spec.1 [] rfl,
    profit_factor_spec.2.1 [winTrade] ?_ ?_,
    profit_factor_spec.2.2.1 [winTrade, lossTrade] ?_⟩
  · norm_num [losers, winTrade, List.filter]
  · norm_num [winners, winTrade, List.filter]
  · norm_num [losers, winTrade, lossTrade, List.filter]

/-- C3: an indicator request with period greater than the series length
fails with `insufficientDataError` (never an all-undefined series); the
checked backtest fails with the matching validation error before any
simulation step runs; a successful run implies the inputs were valid and
returns the full simulation result; and every run either fully succeeds or
fails atomically with no partial result. -/
theorem validation_atomicity_spec :
    (∀ (series : List Candle) (req : IndicatorRequest),
      series.length < req.period →
      computeIndicator series req = .error .insufficientDataError) ∧
    (∀ (cfg : StrategyConfig) (series : List Candle) (capital0 : ℚ),
      ¬ ValidSeries series →
      runBacktestChecked cfg series capital0 = .error .invalidSeriesError) ∧
    (∀ (cfg : StrategyConfig) (series : List Candle) (capital0 : ℚ),
      ValidSeries series → ¬ ValidConfig cfg →
      runBacktestChecked cfg series capital0 = .error .invalidConfigError) ∧
    (∀ (cfg : StrategyConfig) (series : List Candle) (capital0 : ℚ)
      (r : BacktestResult),
      runBacktestChecked cfg series capital0 = .ok r →
      ValidSeries series ∧ ValidConfig cfg ∧ r = runBacktestCore cfg series capital0) ∧
    (∀ (cfg : StrategyConfig) (series : List Candle) (capital0 : ℚ),
      (∃ e, runBacktestChecked cfg series capital0 = .error e) ∨
        ∃ r, runBacktestChecked cfg series capital0 = .ok r) := by
  refine ⟨?_, ?_, ?_, ?_, ?_⟩
  · intro series req h
    rw [computeIndicator, if_pos h]
  · intro cfg series capital0 hns
    rw [runBacktestChecked, if_pos hns]
  · intro cfg series capital0 hs hnc
    rw [runBacktestChecked, if_neg (not_not_intro hs), if_pos hnc]
  · intro cfg series capital0 r h
    rw [runBacktestChecked] at h
    by_cases hs : ValidSeries series
    · rw [if_neg (not_not_intro hs)] at h
      by_cases hc : ValidConfig cfg
      · rw [if_neg (not_not_intro hc)] at h
        exact ⟨hs, hc, (Except.ok.inj h).symm⟩
      · rw [if_pos hc] at h
        exact absurd h (by simp)
    · rw [if_pos hs] at h
      exact absurd h (by simp)
  · intro cfg series capital0
    rw [runBacktestChecked]
    by_cases hs : ValidSeries series
    · rw [if_neg (not_not_intro hs)]
      by_cases hc : ValidConfig cfg
      · rw [if_neg (not_not_intro hc)]
        exact Or.inr ⟨_, rfl⟩
      · rw [if_pos hc]
        exact Or.inl ⟨_, rfl⟩
    · rw [if_pos hs]
      exact Or.inl ⟨_, rfl⟩

/-- Witness for C3 at concrete inputs: an SMA(1) request on an empty series
fails with `insufficientDataError`, a duplicate-timestamp series fails with
`invalidSeriesError`, and a negative stop-loss fails with
`invalidConfigError`. -/
theorem validation_atomicity_spec_witness :
    computeIndicator [] ⟨.smaKind, 1⟩ = .error .insufficientDataError ∧
    runBacktestChecked neverEntryConfig dupSeries 10000
      = .error .invalidSeriesError ∧
    runBacktestChecked negStopConfig [] 10000 = .error .invalidConfigError := by
  refine ⟨validation_atomicity_spec.1 [] ⟨.smaKind, 1⟩ (by decide),
    validation_atomicity_spec.2.1 neverEntryConfig dupSeries 10000 ?_,
    validation_atomicity_spec.2.2.1 negStopConfig [] 10000 ?_ ?_⟩
  · intro h
    have := h.1
    simp [dupSeries, sampleCandle] at this
  · exact ⟨by simp, by simp⟩
  · intro h
    have := h.1
    rw [negStopConfig] at this
    norm_num at this

end DeepTrade
